import Mathlib

/-!
Verification of the query, pagination, filtering and aggregation layer of the
hamburgueria-na-brasa back office (src/backend/models/salesModel.js and
src/backend/models/productModel.js), as a shallow embedding.

Modelling conventions:
* Money amounts and quantities are embedded as `Int` (exact arithmetic standing
  for the JS numbers used for money fields).
* Timestamps are embedded at date granularity as calendar dates, since every
  comparison in the source goes through `created_at::date` or date-literal
  bounds; dates are compared through their civil day number.
* The Supabase store is embedded as in-memory lists; a select with filters is a
  `List.filter`, `count: 'exact'` is the length of the filtered list,
  `range(lo, hi)` is the index slice `[lo, hi]`, and `order(created_at, desc)`
  is a sort by descending day number.  The model store itself never fails, so
  the only failure modelled explicitly is the injected item-insert failure of
  `createSale`, which the spec's failure-injection scenario requires.
-/

namespace HamburgueriaNaBrasa

/-! ## Calendar dates -/

/-- A civil calendar date (`created_at::date`, `current_date`, report bounds). -/
structure Date where
  year : Int
  month : Nat
  day : Nat
deriving DecidableEq

/-- Civil day number of a date (days since 1970-01-01, Hinnant's
days-from-civil algorithm).  All dates handled by the repository have
nonnegative years, where the divisions below agree with floor division. -/
def toDays (dt : Date) : Int :=
  let y : Int := if dt.month ≤ 2 then dt.year - 1 else dt.year
  let era : Int := (if 0 ≤ y then y else y - 399) / 400
  let yoe : Int := y - era * 400
  let m : Int := dt.month
  let doy : Int := (153 * (m + (if 2 < m then -3 else 9)) + 2) / 5 + (dt.day : Int) - 1
  let doe : Int := yoe * 365 + yoe / 4 - yoe / 100 + doy
  era * 146097 + doe - 719468

/-- Gregorian leap-year test. -/
def isLeap (y : Int) : Bool :=
  (y % 4 == 0 && y % 100 != 0) || (y % 400 == 0)

/-- Number of days in a month. -/
def daysInMonth (y : Int) (m : Nat) : Nat :=
  if m = 2 then (if isLeap y then 29 else 28)
  else if m = 4 ∨ m = 6 ∨ m = 9 ∨ m = 11 then 30
  else 31

/-- Postgres `date - interval 'n years'`: the year component is decremented and
the day is clamped to the length of the target month (Feb 29 → Feb 28). -/
def subYears (d : Date) (n : Nat) : Date :=
  let y := d.year - n
  { year := y, month := d.month, day := min d.day (daysInMonth y d.month) }

/-! ## Records -/

/-- A row of the `sales` table. -/
structure Sale where
  id : Nat
  customerId : Nat
  status : String
  paymentMethod : String
  total : Int
  createdAt : Date
deriving DecidableEq

/-- A row of the `sale_items` table. -/
structure SaleItem where
  saleId : Nat
  productId : Nat
  quantity : Int
  price : Int
  subtotal : Int
deriving DecidableEq

/-- A row of the `products` table (the fields the listed operations touch). -/
structure Product where
  id : Nat
  name : String
  category : String
  price : Int
  createdAt : Date
deriving DecidableEq

/-- The sales-side store: the `sales` and `sale_items` tables plus the id the
store will assign to the next inserted sale header. -/
structure DB where
  sales : List Sale
  saleItems : List SaleItem
  nextSaleId : Nat
deriving DecidableEq

/-! ## Store helpers -/

/-- `range(lo, hi)`: the elements whose 0-based index i satisfies lo ≤ i ≤ hi. -/
def listRange (lo hi : Int) (l : List α) : List α :=
  (l.drop (max lo 0).toNat).take (hi - max lo 0 + 1).toNat

/-- `Math.ceil(count / limit)` for a nonnegative count and a positive limit. -/
def ceilPages (count limit : Nat) : Nat :=
  (count + limit - 1) / limit

/-- Insert into a list sorted by descending key. -/
def insertDescBy (key : α → Int) (x : α) : List α → List α
  | [] => [x]
  | y :: ys => if key y ≤ key x then x :: y :: ys else y :: insertDescBy key x ys

/-- `order(field, { ascending: false })`: sort by descending key. -/
def sortDescBy (key : α → Int) : List α → List α
  | [] => []
  | x :: xs => insertDescBy key x (sortDescBy key xs)

/-! ## salesModel.getAllSales -/

/-- The optional filters of `getAllSales`; a `none` field models an absent (or
JS-falsy) filter value on which the corresponding `if (filters.x)` skips the
predicate. -/
structure SalesFilters where
  startDate : Option Date := none
  endDate : Option Date := none
  status : Option String := none
  paymentMethod : Option String := none
  customerId : Option Nat := none
deriving DecidableEq

/-- The conjunction of predicates `getAllSales` chains onto the query: the
creation-date range only when both bounds are present (line 13 of
salesModel.js), then status, payment-method and customer equality. -/
def matchesSaleFilters (f : SalesFilters) (s : Sale) : Bool :=
  (match f.startDate, f.endDate with
   | some sd, some ed =>
       decide (toDays sd ≤ toDays s.createdAt) && decide (toDays s.createdAt ≤ toDays ed)
   | _, _ => true) &&
  (match f.status with | some st => s.status == st | none => true) &&
  (match f.paymentMethod with | some pm => s.paymentMethod == pm | none => true) &&
  (match f.customerId with | some c => s.customerId == c | none => true)

/-- The `{sales, total, page, limit, totalPages}` envelope of `getAllSales`. -/
structure SalesListEnvelope where
  sales : List Sale
  total : Nat
  page : Nat
  limit : Nat
  totalPages : Nat
deriving DecidableEq

/-- `getAllSales(page, limit, filters)`: offset `(page-1)*limit`, filtered and
counted (`count: 'exact'`) select ordered by `created_at` descending, sliced by
`range(offset, offset+limit-1)`, `totalPages = Math.ceil(count/limit)`. -/
def getAllSales (page limit : Nat) (filters : SalesFilters) (db : DB) : SalesListEnvelope :=
  let offset : Int := ((page : Int) - 1) * limit
  let matching := db.sales.filter (matchesSaleFilters filters)
  let data := listRange offset (offset + limit - 1) (sortDescBy (fun s => toDays s.createdAt) matching)
  { sales := data
    total := matching.length
    page := page
    limit := limit
    totalPages := ceilPages matching.length limit }

/-! ## salesModel.getSaleById -/

/-- A sale joined with its items, as returned by `getSaleById`'s select. -/
structure SaleDetail where
  sale : Sale
  items : List SaleItem
deriving DecidableEq

/-- `getSaleById(id)`: `.eq('id', id).single()`; `none` models the error the
store raises when no row matches. -/
def getSaleById (id : Nat) (db : DB) : Option SaleDetail :=
  (db.sales.find? (fun s => s.id == id)).map
    (fun s => { sale := s, items := db.saleItems.filter (fun it => it.saleId == id) })

/-! ## salesModel.createSale -/

/-- The caller-supplied sale header fields (`saleData`). -/
structure SaleInput where
  customerId : Nat
  status : String
  paymentMethod : String
  total : Int
  createdAt : Date
deriving DecidableEq

/-- One element of the caller-supplied `items` list. -/
structure ItemInput where
  productId : Nat
  quantity : Int
  price : Int
deriving DecidableEq

/-- The errors `createSale` can throw. -/
inductive CreateSaleError where
  | itemsInsertError
  | fetchError
deriving DecidableEq

/-- `createSale(saleData, items)`: insert the header as given, then insert one
`sale_items` row per item with `subtotal = price * quantity`, then re-read the
sale through `getSaleById`.  `itemsInsertFails` injects a store failure on the
item insert; the source then throws `itemsError` with the header already
committed, so the post-state still contains it. -/
def createSale (saleData : SaleInput) (items : List ItemInput) (itemsInsertFails : Bool)
    (db : DB) : DB × Except CreateSaleError SaleDetail :=
  let id := db.nextSaleId
  let sale : Sale :=
    { id := id
      customerId := saleData.customerId
      status := saleData.status
      paymentMethod := saleData.paymentMethod
      total := saleData.total
      createdAt := saleData.createdAt }
  let db1 : DB := { db with sales := db.sales ++ [sale], nextSaleId := id + 1 }
  if itemsInsertFails then
    (db1, .error .itemsInsertError)
  else
    let saleItems : List SaleItem := items.map (fun item =>
      { saleId := id
        productId := item.productId
        quantity := item.quantity
        price := item.price
        subtotal := item.price * item.quantity })
    let db2 : DB := { db1 with saleItems := db1.saleItems ++ saleItems }
    (db2,
      match getSaleById id db2 with
      | some detail => .ok detail
      | none => .error .fetchError)

/-! ## salesModel.updateSaleStatus -/

/-- `updateSaleStatus(id, status)`: unconditionally set the status on every row
matching the id and return `data[0]` of the updated rows (`none` models the
`undefined` obtained when no row matched). -/
def updateSaleStatus (id : Nat) (status : String) (db : DB) : DB × Option Sale :=
  let updated := db.sales.map (fun s => if s.id = id then { s with status := status } else s)
  ({ db with sales := updated }, (updated.filter (fun s => s.id == id)).head?)

/-! ## salesModel.getSalesStats -/

/-- The time-window filter expression `getSalesStats` selects per period. -/
inductive TimeWindow where
  | onCurrentDate
  | afterDaysAgo (n : Nat)
  | afterOneYearAgo
deriving DecidableEq

/-- The `switch (period)` of `getSalesStats`: `day` → `created_at::date =
current_date`, `week` → `> current_date - interval '7 days'`, `month` → `>
current_date - interval '30 days'`, `year` → `> current_date - interval
'1 year'`, default → the day filter. -/
def statsTimeFilter (period : String) : TimeWindow :=
  match period with
  | "day" => .onCurrentDate
  | "week" => .afterDaysAgo 7
  | "month" => .afterDaysAgo 30
  | "year" => .afterOneYearAgo
  | _ => .onCurrentDate

/-- Evaluate a time-window filter at the current date: subtracting an interval
of `n` days shifts the day number by `n`; subtracting `interval '1 year'` is
the calendar-year subtraction `subYears`. -/
def applyWindow (w : TimeWindow) (currentDate d : Date) : Bool :=
  match w with
  | .onCurrentDate => toDays d == toDays currentDate
  | .afterDaysAgo n => decide (toDays currentDate - n < toDays d)
  | .afterOneYearAgo => decide (toDays (subYears currentDate 1) < toDays d)

/-- The `{period, totalSales, count, average}` result of `getSalesStats`. -/
structure SalesStats where
  period : String
  totalSales : Int
  count : Nat
  average : Rat
deriving DecidableEq

/-- `getSalesStats(period)`: both round trips filter `status neq cancelled` and
the period window; the first sums `total` with a reduce, the second counts with
`count: 'exact'`; `average = count > 0 ? total / count : 0`. -/
def getSalesStats (period : String) (currentDate : Date) (db : DB) : SalesStats :=
  let w := statsTimeFilter period
  let pred := fun s : Sale => (!(s.status == "cancelled")) && applyWindow w currentDate s.createdAt
  let totalRows := db.sales.filter pred
  let total : Int := totalRows.foldl (fun sum s => sum + s.total) 0
  let count := (db.sales.filter pred).length
  { period := period
    totalSales := total
    count := count
    average := if 0 < count then (total : Rat) / (count : Rat) else 0 }

/-! ## salesModel.getSalesReport -/

/-- One step of the JS object accumulator `acc[method]`: initialise to
`{count: 0, total: 0}` when the key is first seen, then add 1 and the sale
total.  The association list keeps JS object insertion order. -/
def pmUpsert (acc : List (String × Nat × Int)) (method : String) (t : Int) :
    List (String × Nat × Int) :=
  match acc with
  | [] => [(method, 1, t)]
  | (m, c, tot) :: rest =>
      if m = method then (m, c + 1, tot + t) :: rest
      else (m, c, tot) :: pmUpsert rest method t

/-- The `data.reduce` of `getSalesReport` grouping sales by payment method. -/
def paymentMethodsFold (sales : List Sale) : List (String × Nat × Int) :=
  sales.foldl (fun acc s => pmUpsert acc s.paymentMethod s.total) []

/-- Reading `acc[method]` from the accumulator. -/
def pmLookup (acc : List (String × Nat × Int)) (method : String) : Option (Nat × Int) :=
  match acc with
  | [] => none
  | (m, c, t) :: rest => if m = method then some (c, t) else pmLookup rest method

/-- Errors a sales operation could throw; the model store never fails, so the
code-embedded operations only ever return `ok` results. -/
inductive SalesError where
  | validationError (msg : String)
  | storeError
deriving DecidableEq

/-- The result record of `getSalesReport`. -/
structure SalesReport where
  startDate : Date
  endDate : Date
  totalSales : Nat
  totalRevenue : Int
  paymentMethods : List (String × Nat × Int)
  sales : List Sale
deriving DecidableEq

/-- `getSalesReport(startDate, endDate)`: select sales with `created_at` in the
inclusive range ordered descending, then `totalSales = data.length`,
`totalRevenue = reduce (+ total) 0`, and the payment-method grouping fold. -/
def getSalesReport (startDate endDate : Date) (db : DB) : Except SalesError SalesReport :=
  let data := sortDescBy (fun s => toDays s.createdAt)
    (db.sales.filter (fun s =>
      decide (toDays startDate ≤ toDays s.createdAt) &&
      decide (toDays s.createdAt ≤ toDays endDate)))
  .ok
    { startDate := startDate
      endDate := endDate
      totalSales := data.length
      totalRevenue := data.foldl (fun sum s => sum + s.total) 0
      paymentMethods := paymentMethodsFold data
      sales := data }

/-! ## productModel.getAllProducts -/

/-- Whether `needle` occurs as a contiguous sublist of `hay`. -/
def containsSublist (needle : List Char) : List Char → Bool
  | [] => needle.isEmpty
  | c :: rest => needle.isPrefixOf (c :: rest) || containsSublist needle rest

/-- `ilike('%needle%')`: case-insensitive substring containment. -/
def ilikeContains (hay needle : String) : Bool :=
  containsSublist needle.toLower.toList hay.toLower.toList

/-- The filters `getAllProducts` chains: name search when `search` is truthy
(non-empty) and category equality when `category` is truthy. -/
def matchesProductFilters (search category : String) (p : Product) : Bool :=
  (search == "" || ilikeContains p.name search) &&
  (category == "" || p.category == category)

/-- The `{products, pagination}` envelope of `getAllProducts`, flattened. -/
structure ProductsListEnvelope where
  products : List Product
  page : Nat
  limit : Nat
  total : Nat
  pages : Nat
deriving DecidableEq

/-- `getAllProducts(page, limit, search, category)`: offset `(page-1)*limit`,
filtered counted select ordered by `created_at` descending, sliced by
`range(offset, offset+limit-1)`, `pages = Math.ceil(count/limit)`. -/
def getAllProducts (page limit : Nat) (search category : String)
    (db : List Product) : ProductsListEnvelope :=
  let offset : Int := ((page : Int) - 1) * limit
  let matching := db.filter (matchesProductFilters search category)
  let data := listRange offset (offset + limit - 1)
    (sortDescBy (fun p => toDays p.createdAt) matching)
  { products := data
    page := page
    limit := limit
    total := matching.length
    pages := ceilPages matching.length limit }

/-! ## Spec-side definitions for refinement comparison -/

/-- Modelled from the spec: "a fixed look-back window ending now … week =
trailing 7 days, month = trailing 30 days, and year = the trailing 365 days":
the sale date lies strictly after the current day number minus `n`. -/
def specTrailingWindow (n : Nat) (currentDate d : Date) : Bool :=
  decide (toDays currentDate - n < toDays d)

/-! ## Sample data -/

/-- Absent filter object (`filters = {}`). -/
def noFilters : SalesFilters := {}

def sampleSale : Sale :=
  { id := 1, customerId := 1, status := "pending", paymentMethod := "cash"
    total := 100, createdAt := ⟨2024, 1, 10⟩ }

def emptyDB : DB := { sales := [], saleItems := [], nextSaleId := 1 }

def oneSaleDB : DB := { sales := [sampleSale], saleItems := [], nextSaleId := 2 }

def cancelledSale : Sale :=
  { id := 3, customerId := 1, status := "cancelled", paymentMethod := "cash"
    total := 50, createdAt := ⟨2024, 1, 10⟩ }

def cancelledOnlyDB : DB :=
  { sales := [{ id := 1, customerId := 1, status := "cancelled", paymentMethod := "cash"
                total := 100, createdAt := ⟨2024, 1, 10⟩ }]
    saleItems := []
    nextSaleId := 2 }

/-! ## C1: atomicity of createSale -/

/-- C1: the spec's atomicity contract fails on the code.  With the header
insert committed and the item insert failing, `createSale` throws the raw item
error, performs no transaction or compensating delete, and the new sale id (1)
is still retrievable through `getSaleById` as an item-less sale. -/
theorem createSale_item_failure_header_visible :
    (createSale ⟨1, "pending", "cash", 20, ⟨2024, 1, 2⟩⟩ [⟨1, 2, 10⟩] true emptyDB).2 =
      Except.error CreateSaleError.itemsInsertError ∧
    getSaleById 1 (createSale ⟨1, "pending", "cash", 20, ⟨2024, 1, 2⟩⟩ [⟨1, 2, 10⟩] true emptyDB).1 =
      some ⟨⟨1, 1, "pending", "cash", 20, ⟨2024, 1, 2⟩⟩, []⟩ :=
  ⟨rfl, rfl⟩

/-! ## C2: cancelled sales in aggregations -/

/-- C2 (counterexample): `getSalesReport` does not exclude cancelled sales.
Over a store whose only sale is cancelled, the report counts it, adds its total
to the revenue, and groups it under its payment method. -/
theorem getSalesReport_includes_cancelled_cex :
    getSalesReport ⟨2024, 1, 1⟩ ⟨2024, 1, 31⟩ cancelledOnlyDB =
      Except.ok ⟨⟨2024, 1, 1⟩, ⟨2024, 1, 31⟩, 1, 100, [("cash", 1, 100)],
        [{ id := 1, customerId := 1, status := "cancelled", paymentMethod := "cash"
           total := 100, createdAt := ⟨2024, 1, 10⟩ }]⟩ := by
  rfl

/-- C2 (amended): `getSalesStats` excludes cancelled sales — prepending a
cancelled sale to the store leaves the whole statistics record unchanged —
while `getSalesReport` applies only the date-range filter and includes
cancelled sales in its count, revenue and grouping (see the counterexample). -/
theorem getSalesStats_excludes_cancelled (period : String) (currentDate : Date)
    (db : DB) (c : Sale) (hc : c.status = "cancelled") :
    getSalesStats period currentDate { db with sales := c :: db.sales } =
      getSalesStats period currentDate db := by
  simp [getSalesStats, List.filter_cons, hc]

/-- C2 (witness): the amended statement evaluated at a concrete store. -/
theorem getSalesStats_excludes_cancelled_witness :
    cancelledSale.status = "cancelled" ∧
    getSalesStats "day" ⟨2024, 1, 10⟩ { oneSaleDB with sales := cancelledSale :: oneSaleDB.sales } =
      getSalesStats "day" ⟨2024, 1, 10⟩ oneSaleDB :=
  ⟨rfl, getSalesStats_excludes_cancelled "day" ⟨2024, 1, 10⟩ oneSaleDB cancelledSale rfl⟩

/-! ## C3: derived subtotals and header total -/

/-- C3 (counterexample): `createSale` persists the caller-supplied header total
verbatim.  With `saleData.total = 999` and a single item of subtotal 20, the
stored header total is 999, not the sum of subtotals. -/
theorem createSale_header_total_cex :
    (createSale ⟨1, "pending", "cash", 999, ⟨2024, 1, 2⟩⟩ [⟨1, 2, 10⟩] false emptyDB).1.sales.map
        Sale.total = [999] ∧
    (createSale ⟨1, "pending", "cash", 999, ⟨2024, 1, 2⟩⟩ [⟨1, 2, 10⟩] false emptyDB).1.saleItems.map
        SaleItem.subtotal = [20] ∧
    (999 : Int) ≠ 20 :=
  ⟨rfl, rfl, by decide⟩

/-- C3 (amended): every item persisted by `createSale` has
`subtotal = price * quantity`, but the persisted header's total equals the
caller-supplied `saleData.total`; the operation does not compute it from the
items. -/
theorem createSale_subtotal_and_header_total (saleData : SaleInput)
    (items : List ItemInput) (db : DB)
    (hfresh : ∀ s ∈ db.sales, s.id ≠ db.nextSaleId) :
    (∀ it ∈ (createSale saleData items false db).1.saleItems,
        it ∈ db.saleItems ∨ it.subtotal = it.price * it.quantity) ∧
    ((createSale saleData items false db).1.sales.find?
        (fun s => s.id == db.nextSaleId)).map Sale.total = some saleData.total := by
  constructor
  · intro it hit
    simp [createSale, List.mem_append] at hit
    rcases hit with h | h
    · exact Or.inl h
    · obtain ⟨item, _, rfl⟩ := h
      exact Or.inr rfl
  · have hnone : db.sales.find? (fun s => s.id == db.nextSaleId) = none := by
      rw [List.find?_eq_none]
      intro s hs
      simpa using hfresh s hs
    simp [createSale, List.find?_append, hnone]

/-- C3 (witness): the amended statement evaluated at a concrete input. -/
theorem createSale_subtotal_and_header_total_witness :
    (∀ s ∈ emptyDB.sales, s.id ≠ emptyDB.nextSaleId) ∧
    ((createSale ⟨1, "pending", "cash", 999, ⟨2024, 1, 2⟩⟩ [⟨1, 2, 10⟩] false emptyDB).1.sales.find?
        (fun s => s.id == emptyDB.nextSaleId)).map Sale.total = some 999 :=
  ⟨by simp [emptyDB],
   (createSale_subtotal_and_header_total ⟨1, "pending", "cash", 999, ⟨2024, 1, 2⟩⟩
     [⟨1, 2, 10⟩] emptyDB (by simp [emptyDB])).2⟩

/-! ## C4: the stats time windows -/

def marchSaleDB : DB :=
  { sales := [{ id := 1, customerId := 1, status := "pending", paymentMethod := "cash"
                total := 100, createdAt := ⟨2023, 3, 2⟩ }]
    saleItems := []
    nextSaleId := 2 }

/-- C4 (counterexample): the `year` period is not a trailing-365-day window.
On current date 2024-03-01 the code's window bound is `current_date - interval
'1 year'` = 2023-03-01 (calendar subtraction, spanning the 2024 leap day), so a
sale dated 2023-03-02 — exactly 365 days back, outside the spec's trailing-365
window — is still counted by `getSalesStats`. -/
theorem stats_year_window_cex :
    (getSalesStats "year" ⟨2024, 3, 1⟩ marchSaleDB).count = 1 ∧
    (getSalesStats "year" ⟨2024, 3, 1⟩ marchSaleDB).totalSales = 100 ∧
    specTrailingWindow 365 ⟨2024, 3, 1⟩ ⟨2023, 3, 2⟩ = false := by
  exact ⟨by decide, by decide, by decide⟩

/-- C4 (amended): `getSalesStats` windows are: `day` = the current calendar
day, `week` = trailing 7 days, `month` = trailing 30 days (fixed-duration
windows as claimed), but `year` = strictly after the same calendar date one
year earlier (`interval '1 year'`, day clamped for Feb 29) — calendar-year
semantics, not a trailing 365-day window; an unrecognized period string falls
back to the day window. -/
theorem stats_window_characterization (currentDate d : Date) :
    applyWindow (statsTimeFilter "day") currentDate d = (toDays d == toDays currentDate) ∧
    applyWindow (statsTimeFilter "week") currentDate d = specTrailingWindow 7 currentDate d ∧
    applyWindow (statsTimeFilter "month") currentDate d = specTrailingWindow 30 currentDate d ∧
    applyWindow (statsTimeFilter "year") currentDate d =
      decide (toDays (subYears currentDate 1) < toDays d) ∧
    statsTimeFilter "whatever" = statsTimeFilter "day" :=
  ⟨rfl, rfl, rfl, rfl, rfl⟩

/-! ## C5: the pagination contract -/

/-- `(n + k - 1) / k` — the embedding of `Math.ceil(n / k)` — is the rational
ceiling of `n / k` for positive `k`. -/
theorem ceilPages_eq_ceil (n k : Nat) (hk : 0 < k) :
    ((ceilPages n k : Nat) : Int) = ⌈(n : Rat) / (k : Rat)⌉ := by
  have hA : ceilPages n k * k ≤ n + k - 1 := Nat.div_mul_le_self (n + k - 1) k
  have hB : n + k - 1 < ceilPages n k * k + k := by
    have h := Nat.lt_mul_div_succ (n + k - 1) hk
    rw [Nat.mul_add, Nat.mul_one, Nat.mul_comm] at h
    exact h
  have h1 : n ≤ ceilPages n k * k := by omega
  have h2 : ceilPages n k * k < n + k := by omega
  have hkq : (0 : Rat) < (k : Rat) := by exact_mod_cast hk
  symm
  rw [Int.ceil_eq_iff]
  constructor
  · rw [lt_div_iff₀ hkq]
    have h2q : ((ceilPages n k : Nat) : Rat) * (k : Rat) < (n : Rat) + (k : Rat) := by
      exact_mod_cast h2
    push_cast
    nlinarith [h2q]
  · rw [div_le_iff₀ hkq]
    have h1q : (n : Rat) ≤ ((ceilPages n k : Nat) : Rat) * (k : Rat) := by
      exact_mod_cast h1
    push_cast
    linarith [h1q]

/-- A range slice `[lo, lo + k - 1]` starting at a nonnegative offset holds at
most `k` records. -/
theorem listRange_length_le (lo : Int) (k : Nat) (l : List α) (h : 0 ≤ lo) :
    (listRange lo (lo + k - 1) l).length ≤ k := by
  unfold listRange
  rw [max_eq_left h]
  have hk : (lo + k - 1 - lo + 1) = (k : Int) := by ring
  rw [hk]
  calc (List.take (k : Int).toNat (l.drop lo.toNat)).length ≤ (k : Int).toNat :=
        List.length_take_le _ _
    _ = k := Int.toNat_natCast k

/-- C5: for page ≥ 1 and limit ≥ 1, `getAllSales` and `getAllProducts` return
at most `limit` records, their page count equals the rational ceiling of
`total / limit`, and the returned total is the same for every page under the
same filter. -/
theorem list_pagination_contract (page limit p2 : Nat) (f : SalesFilters) (db : DB)
    (search category : String) (pdb : List Product)
    (hp : 1 ≤ page) (hl : 1 ≤ limit) :
    (getAllSales page limit f db).sales.length ≤ limit ∧
    (((getAllSales page limit f db).totalPages : Nat) : Int) =
      ⌈((getAllSales page limit f db).total : Rat) / (limit : Rat)⌉ ∧
    (getAllSales page limit f db).total = (getAllSales p2 limit f db).total ∧
    (getAllProducts page limit search category pdb).products.length ≤ limit ∧
    (((getAllProducts page limit search category pdb).pages : Nat) : Int) =
      ⌈((getAllProducts page limit search category pdb).total : Rat) / (limit : Rat)⌉ ∧
    (getAllProducts page limit search category pdb).total =
      (getAllProducts p2 limit search category pdb).total := by
  have hoff : (0 : Int) ≤ ((page : Int) - 1) * limit := by
    have h1 : (1 : Int) ≤ (page : Int) := by exact_mod_cast hp
    have h0 : (0 : Int) ≤ (limit : Int) := by positivity
    nlinarith
  exact ⟨listRange_length_le _ limit _ hoff, ceilPages_eq_ceil _ limit hl, rfl,
    listRange_length_le _ limit _ hoff, ceilPages_eq_ceil _ limit hl, rfl⟩

/-- C5 (witness): the contract evaluated at page 1, limit 2 over a store with
one sale. -/
theorem list_pagination_contract_witness :
    1 ≤ 1 ∧ 1 ≤ 2 ∧ (getAllSales 1 2 noFilters oneSaleDB).sales.length ≤ 2 :=
  ⟨by decide, by decide,
   (list_pagination_contract 1 2 3 noFilters oneSaleDB "" "" [] (by decide) (by decide)).1⟩

/-! ## C6: pagination bounds are not validated -/

/-- C6 (counterexample): with page = 0 (page < 1) neither operation rejects:
both still query the store — the results over two different stores differ,
because the exact count is still read — with offset (0-1)*limit = -10. -/
theorem list_no_pagination_validation_cex :
    getAllSales 0 10 noFilters emptyDB ≠ getAllSales 0 10 noFilters oneSaleDB ∧
    getAllProducts 0 10 "" "" [] ≠
      getAllProducts 0 10 "" "" [⟨1, "X-Burger", "burgers", 25, ⟨2024, 1, 5⟩⟩] :=
  ⟨by decide, by decide⟩

/-- C6 (amended): no pagination validation exists: for every page and limit —
page = 0 included — the store query is issued and the envelope's total equals
the store's count of rows matching the filters. -/
theorem list_total_counts_matching (page limit : Nat) (f : SalesFilters) (db : DB)
    (search category : String) (pdb : List Product) :
    (getAllSales page limit f db).total = (db.sales.filter (matchesSaleFilters f)).length ∧
    (getAllProducts page limit search category pdb).total =
      (pdb.filter (matchesProductFilters search category)).length :=
  ⟨rfl, rfl⟩

/-! ## C7: inverted report range -/

/-- C7 (counterexample): `Report(start=2024-02-01, end=2024-01-01)` is not
rejected: `getSalesReport` issues the store query as usual and returns an
ordinary empty-range report, not a validation error. -/
theorem report_inverted_range_cex :
    getSalesReport ⟨2024, 2, 1⟩ ⟨2024, 1, 1⟩ oneSaleDB =
      Except.ok ⟨⟨2024, 2, 1⟩, ⟨2024, 1, 1⟩, 0, 0, [], []⟩ := by
  rfl

/-- C7 (amended): `getSalesReport` performs no range validation: whenever
startDate > endDate it still queries the store and returns the report of the
empty range — zero sales, zero revenue, empty grouping — with the given bounds
echoed back, never an error. -/
theorem report_inverted_range_empty (s e : Date) (db : DB)
    (h : toDays e < toDays s) :
    getSalesReport s e db = Except.ok ⟨s, e, 0, 0, [], []⟩ := by
  have hf : db.sales.filter (fun x =>
      decide (toDays s ≤ toDays x.createdAt) && decide (toDays x.createdAt ≤ toDays e)) = [] := by
    rw [List.filter_eq_nil_iff]
    intro x hx
    simp only [Bool.and_eq_true, decide_eq_true_eq, not_and]
    omega
  simp [getSalesReport, hf, sortDescBy, paymentMethodsFold]

/-- C7 (witness): the amended statement evaluated at a concrete inverted
range. -/
theorem report_inverted_range_empty_witness :
    toDays ⟨2024, 3, 1⟩ < toDays ⟨2024, 3, 5⟩ ∧
    getSalesReport ⟨2024, 3, 5⟩ ⟨2024, 3, 1⟩ oneSaleDB =
      Except.ok ⟨⟨2024, 3, 5⟩, ⟨2024, 3, 1⟩, 0, 0, [], []⟩ :=
  ⟨by decide, report_inverted_range_empty ⟨2024, 3, 5⟩ ⟨2024, 3, 1⟩ oneSaleDB (by decide)⟩

/-! ## C8: the payment-method grouping fold -/

/-- Reading from the accumulator after one upsert step. -/
theorem pmLookup_pmUpsert (acc : List (String × Nat × Int)) (k m : String) (t : Int) :
    pmLookup (pmUpsert acc k t) m =
      if k = m then
        match pmLookup acc m with
        | none => some (1, t)
        | some (c, tot) => some (c + 1, tot + t)
      else pmLookup acc m := by
  induction acc with
  | nil =>
    by_cases hkm : k = m <;> simp [pmUpsert, pmLookup, hkm]
  | cons hd tl ih =>
    obtain ⟨m0, c0, t0⟩ := hd
    by_cases h0k : m0 = k
    · subst h0k
      by_cases h0m : m0 = m
      · subst h0m
        simp [pmUpsert, pmLookup]
      · simp [pmUpsert, pmLookup, h0m]
    · by_cases h0m : m0 = m
      · subst h0m
        have hkm : ¬k = m0 := fun hh => h0k hh.symm
        simp [pmUpsert, pmLookup, h0k, hkm]
      · simp [pmUpsert, pmLookup, h0k, h0m, ih]

/-- The grouping fold computed from scratch: the value stored for a method is
exactly the count of the sales carrying it and the sum of their totals, and a
method never seen has no entry (it starts from `{0, 0}` only when first
seen). -/
theorem pmLookup_paymentMethodsFold (l : List Sale) (m : String) :
    pmLookup (paymentMethodsFold l) m =
      if (l.filter (fun s => s.paymentMethod == m)).length = 0 then none
      else some ((l.filter (fun s => s.paymentMethod == m)).length,
        ((l.filter (fun s => s.paymentMethod == m)).map Sale.total).sum) := by
  induction l using List.reverseRecOn with
  | nil => simp [paymentMethodsFold, pmLookup]
  | append_singleton tl s ih =>
    have hstep : paymentMethodsFold (tl ++ [s]) =
        pmUpsert (paymentMethodsFold tl) s.paymentMethod s.total := by
      simp [paymentMethodsFold, List.foldl_append]
    rw [hstep, pmLookup_pmUpsert, ih]
    by_cases hm : s.paymentMethod = m
    · subst hm
      by_cases hz : (tl.filter (fun x => x.paymentMethod == s.paymentMethod)).length = 0
      · have hnil : tl.filter (fun x => x.paymentMethod == s.paymentMethod) = [] :=
          List.length_eq_zero.1 hz
        simp [List.filter_append, hnil]
      · simp only [if_pos rfl, if_neg hz]
        simp [List.filter_append, hz]
    · have hm' : ¬(s.paymentMethod == m) = true := by simpa using hm
      simp [List.filter_append, hm, hm']

/-- C8: the per-payment-method grouping fold of `getSalesReport` is pure and
order-independent: permuting the folded sale list leaves every method's
`{count, total}` value (and its absence before first being seen) unchanged. -/
theorem report_grouping_perm_invariant (l l' : List Sale) (h : l.Perm l') (m : String) :
    pmLookup (paymentMethodsFold l) m = pmLookup (paymentMethodsFold l') m := by
  rw [pmLookup_paymentMethodsFold, pmLookup_paymentMethodsFold]
  have hcnt : (l.filter (fun s => s.paymentMethod == m)).length =
      (l'.filter (fun s => s.paymentMethod == m)).length :=
    (h.filter _).length_eq
  have hsum : ((l.filter (fun s => s.paymentMethod == m)).map Sale.total).sum =
      ((l'.filter (fun s => s.paymentMethod == m)).map Sale.total).sum :=
    ((h.filter _).map _).sum_eq
  rw [hcnt, hsum]

def saleA : Sale := ⟨1, 1, "pending", "cash", 10, ⟨2024, 1, 1⟩⟩

def saleB : Sale := ⟨2, 1, "pending", "card", 20, ⟨2024, 1, 2⟩⟩

/-- C8 (witness): invariance of the `cash` entry under a concrete swap. -/
theorem report_grouping_perm_invariant_witness :
    ([saleA, saleB].Perm [saleB, saleA]) ∧
    pmLookup (paymentMethodsFold [saleA, saleB]) "cash" =
      pmLookup (paymentMethodsFold [saleB, saleA]) "cash" :=
  ⟨List.Perm.swap saleB saleA [],
   report_grouping_perm_invariant [saleA, saleB] [saleB, saleA]
     (List.Perm.swap saleB saleA []) "cash"⟩

/-! ## C9: updateSaleStatus performs no validation -/

def completedOnlyDB : DB :=
  { sales := [{ id := 1, customerId := 1, status := "completed", paymentMethod := "cash"
                total := 100, createdAt := ⟨2024, 1, 10⟩ }]
    saleItems := []
    nextSaleId := 2 }

/-- C9 (counterexample): the terminal status `completed` is freely overwritten:
`updateSaleStatus(1, 'pending')` on a completed sale performs the update and
returns the updated record instead of rejecting the transition, and even a
string outside the status enumeration is written unconditionally. -/
theorem updateSaleStatus_no_validation_cex :
    (updateSaleStatus 1 "pending" completedOnlyDB).2 =
      some { id := 1, customerId := 1, status := "pending", paymentMethod := "cash"
             total := 100, createdAt := ⟨2024, 1, 10⟩ } ∧
    (updateSaleStatus 1 "garbage" completedOnlyDB).1.sales.map Sale.status = ["garbage"] :=
  ⟨rfl, rfl⟩

/-- `data[0]` of the update: the first row matching the id, with the new
status. -/
theorem filter_map_head (id : Nat) (st : String) : ∀ l : List Sale,
    ((l.map (fun s => if s.id = id then { s with status := st } else s)).filter
        (fun s => s.id == id)).head? =
      (l.find? (fun s => s.id == id)).map (fun s => { s with status := st })
  | [] => rfl
  | s :: tl => by
    by_cases h : s.id = id
    · simp [List.filter_cons, List.find?_cons, h]
    · simp [List.filter_cons, List.find?_cons, h, filter_map_head id st tl]

/-- C9 (amended): `updateSaleStatus` performs no validation at all: for every
id and status string it unconditionally rewrites the status of each matching
row, and returns the first matching row with the new status — `none` (the JS
`undefined` from `data[0]`) when the id does not exist, with no explicit
not-found outcome and no enumeration or transition check. -/
theorem updateSaleStatus_characterization (id : Nat) (st : String) (db : DB) :
    (updateSaleStatus id st db).1.sales =
      db.sales.map (fun s => if s.id = id then { s with status := st } else s) ∧
    (updateSaleStatus id st db).2 =
      (db.sales.find? (fun s => s.id == id)).map (fun s => { s with status := st }) :=
  ⟨rfl, filter_map_head id st db.sales⟩

/-! ## C10: the date filter needs both bounds -/

/-- With at most one date bound, the chained filters equal those of the
date-free filter object. -/
theorem matchesSaleFilters_no_date (f : SalesFilters)
    (h : f.startDate = none ∨ f.endDate = none) :
    matchesSaleFilters f =
      matchesSaleFilters { f with startDate := none, endDate := none } := by
  funext s
  obtain ⟨sd, ed, st, pm, cid⟩ := f
  rcases h with h | h
  · cases h; rfl
  · cases h; cases sd <;> rfl

/-- C10: `getAllSales` applies the creation-date range only when both bounds
are present: a filter carrying exactly one of the two bounds yields exactly the
result of the listing with no date restriction at all. -/
theorem getAllSales_single_date_bound_ignored (page limit : Nat) (f : SalesFilters)
    (db : DB)
    (h : (f.startDate.isSome = true ∧ f.endDate = none) ∨
         (f.startDate = none ∧ f.endDate.isSome = true)) :
    getAllSales page limit f db =
      getAllSales page limit { f with startDate := none, endDate := none } db := by
  have hf : matchesSaleFilters f =
      matchesSaleFilters { f with startDate := none, endDate := none } := by
    apply matchesSaleFilters_no_date
    rcases h with ⟨_, h2⟩ | ⟨h1, _⟩
    · exact Or.inr h2
    · exact Or.inl h1
  simp [getAllSales, hf]

/-- C10 (witness): a start-only filter equals the unrestricted listing. -/
theorem getAllSales_single_date_bound_ignored_witness :
    (({ startDate := some ⟨2024, 1, 1⟩ } : SalesFilters).startDate.isSome = true ∧
      ({ startDate := some ⟨2024, 1, 1⟩ } : SalesFilters).endDate = none) ∧
    getAllSales 1 10 { startDate := some ⟨2024, 1, 1⟩ } oneSaleDB =
      getAllSales 1 10
        { ({ startDate := some ⟨2024, 1, 1⟩ } : SalesFilters) with
          startDate := none, endDate := none } oneSaleDB :=
  ⟨⟨rfl, rfl⟩,
   getAllSales_single_date_bound_ignored 1 10 { startDate := some ⟨2024, 1, 1⟩ } oneSaleDB
     (Or.inl ⟨rfl, rfl⟩)⟩

end HamburgueriaNaBrasa
